import Mathlib

/-!
Shallow embedding of the core of the `nannyml` repository:

* `src/nannyml/drift/statistical_drift_calculator.py`
  (`StatisticalDriftCalculator._calculate_drift`, `_map_by_index`,
  `calculate_statistical_drift`), and
* `src/nannyml/performance_estimation/base.py`
  (`PerformanceEstimator.__init__`, `BasePerformanceEstimator.__init__`,
  `BasePerformanceEstimator.fit`, `BasePerformanceEstimator.estimate`).

Tabular data is modelled over `Rat` values; external collaborators
(`scipy.stats` tests, `preprocess`, the concrete chunkers) are taken as
explicit function parameters, while everything the source file itself does
(pairing, dispatch, rounding, column naming, error raising, control flow)
is embedded faithfully.  Python exceptions are modelled with `Except`.
-/

/-- Errors raised (or raisable) by the embedded code.  `attributeErrorNone`
models Python's `AttributeError` on dereferencing `None`; `keyError` models
a pandas column lookup failure; the remaining constructors model the
`nannyml.exceptions` classes and `NotImplementedError`. -/
inductive Err where
  | invalidArguments (msg : String)
  | notFitted (msg : String)
  | invalidConfiguration (msg : String)
  | notImplemented
  | attributeErrorNone
  | keyError (col : String)
deriving DecidableEq, Repr

/-- Modelled from the spec: `ModelMetadata` (external module `nannyml.metadata`)
classifies feature columns as categorical or continuous. -/
inductive FeatureType where
  | categorical
  | continuous
deriving DecidableEq, Repr

/-- Modelled from the spec: a feature declared in the model metadata, with a
column name and a declared kind. -/
structure Feature where
  column_name : String
  feature_type : FeatureType
deriving DecidableEq, Repr

/-- Modelled from the spec: `ModelMetadata` holds `categorical_features` and
`continuous_features` (each a named column with a declared kind) and
`features` (their union). -/
structure ModelMetadata where
  features : List Feature
deriving DecidableEq, Repr

/-- Modelled from the spec: the categorical members of `features`. -/
def ModelMetadata.categorical_features (md : ModelMetadata) : List Feature :=
  md.features.filter (fun f => f.feature_type = FeatureType.categorical)

/-- Modelled from the spec: the continuous members of `features`. -/
def ModelMetadata.continuous_features (md : ModelMetadata) : List Feature :=
  md.features.filter (fun f => f.feature_type = FeatureType.continuous)

/-- A chunk: an identity tag (Python object identity, used as a dict key in
`_map_by_index`), a `key` and a tabular `data` slice, modelled as an
association list from column names to column values. -/
structure Chunk where
  id : Nat
  key : String
  data : List (String × List Rat)
deriving DecidableEq, Repr

/-- Column names of a chunk's data slice (`chunk.data.columns`). -/
def chunkColumns (c : Chunk) : List String :=
  c.data.map Prod.fst

/-- Column lookup `chunk.data[col]`: `none` models a pandas `KeyError`. -/
def colData (c : Chunk) (col : String) : Option (List Rat) :=
  (c.data.find? (fun p => decide (p.1 = col))).map Prod.snd

/-- A data frame, reduced to its list of rows (cell contents are irrelevant
to the embedded control flow; `DataFrame.empty` is all the source reads). -/
structure DataFrame where
  rows : List (List Rat)
deriving DecidableEq, Repr

/-- pandas `DataFrame.empty` (for the row-counted frames used here). -/
def DataFrame.empty (df : DataFrame) : Bool :=
  df.rows.isEmpty

/-- A cell of a drift-result row: the `chunk` key is a string, test results
are numbers. -/
inductive CellValue where
  | str (s : String)
  | num (q : Rat)
deriving DecidableEq, Repr

/-- One result row, as the Python dict `chunk_drift` (insertion ordered). -/
abbrev Row := List (String × CellValue)

/-- Python dict assignment `d[k] = v`: overwrite in place if the key exists,
else append at the end (insertion order is preserved). -/
def dictUpdate {α β : Type} [DecidableEq α] : List (α × β) → α → β → List (α × β)
  | [], k, v => [(k, v)]
  | (k', v') :: rest, k, v =>
      if k' = k then (k', v) :: rest else (k', v') :: dictUpdate rest k v

/-- Python dict comprehension over a list of key/value pairs: first-occurrence
position, last-assigned value. -/
def dictOfPairs {α β : Type} [DecidableEq α] (ps : List (α × β)) : List (α × β) :=
  ps.foldl (fun d p => dictUpdate d p.1 p.2) []

/-- Dict lookup `d[k]` returning `none` when the key is absent. -/
def dictGet {β : Type} (row : List (String × β)) (k : String) : Option β :=
  (row.find? (fun p => decide (p.1 = k))).map Prod.snd

/-- itertools.zip_longest with `fillvalue=None` over two chunk lists. -/
def zipLongest : List Chunk → List Chunk → List (Option Chunk × Option Chunk)
  | [], bs => bs.map (fun b => (none, some b))
  | a :: as, [] => (some a, none) :: zipLongest as []
  | a :: as, b :: bs => (some a, some b) :: zipLongest as bs

/-- `_map_by_index(reference_chunks, analysis_chunks)`:
`{l1: l2 for l1, l2 in itertools.zip_longest(reference_chunks, analysis_chunks, fillvalue=None)}`.
Dict keys are reference chunks (Python object identity, here `Chunk` with its
`id` tag) or the single `None` fill value. -/
def map_by_index (reference_chunks analysis_chunks : List Chunk) :
    List (Option Chunk × Option Chunk) :=
  dictOfPairs (zipLongest reference_chunks analysis_chunks)

/-- Python `list(set(xs) & set(ys))`: the distinct members of `xs` also in
`ys` (the in-process iteration order is fixed here as first-appearance
order; no claim depends on the order of this list). -/
def setInter (xs ys : List String) : List String :=
  xs.dedup.filter (fun x => decide (x ∈ ys))

/-- Number of occurrences of `v` in `xs`. -/
def countOcc (xs : List Rat) (v : Rat) : Nat :=
  (xs.filter (fun x => decide (x = v))).length

/-- pandas `Series.value_counts()`: counts of the distinct values, sorted by
count descending (stable). -/
def value_counts (xs : List Rat) : List (Rat × Nat) :=
  List.insertionSort (fun a b : Rat × Nat => b.2 ≤ a.2)
    (xs.dedup.map (fun v => (v, countOcc xs v)))

/-- Lookup of a value's count in a value-counts series. -/
def lookupCount (s : List (Rat × Nat)) (v : Rat) : Option Nat :=
  (s.find? (fun p => decide (p.1 = v))).map Prod.snd

/-- pandas `pd.concat([s1, s2], axis=1)` on two value-count series: outer
join on the value index (union of the indexes, `none` marking a `NaN` cell
where a value is absent from one side). -/
def pdConcatCounts (s1 s2 : List (Rat × Nat)) :
    List (Rat × Option Nat × Option Nat) :=
  let i1 := s1.map Prod.fst
  let idx := i1 ++ (s2.map Prod.fst).filter (fun v => decide (v ∉ i1))
  idx.map (fun v => (v, lookupCount s1 v, lookupCount s2 v))

/-- Round a rational to the nearest integer, ties to even — the rounding mode
of `np.round` (IEEE round-half-even, applied here over `Rat`). -/
def roundHalfEven (x : Rat) : Int :=
  if x - ⌊x⌋ < 1/2 then ⌊x⌋
  else if 1/2 < x - ⌊x⌋ then ⌊x⌋ + 1
  else if ⌊x⌋ % 2 = 0 then ⌊x⌋ else ⌊x⌋ + 1

/-- np.round(x, decimals=3) over the rational model: scale by 1000, round
half-to-even, scale back. -/
def pyRound3 (x : Rat) : Rat :=
  (roundHalfEven (x * 1000) : Rat) / 1000

/-- The external `scipy.stats` tests, taken as parameters: `chi2_contingency`
consumes the concatenated value-count table and yields
`(statistic, p_value)` (the discarded dof/expected components are dropped);
`ks_2samp` consumes the two raw value sequences. -/
structure DriftTestFns where
  chi2_contingency : List (Rat × Option Nat × Option Nat) → Rat × Rat
  ks_2samp : List Rat → List Rat → Rat × Rat

/-- The categorical loop of `_calculate_drift`: for each `col` in
`cat_cols_ana` run `chi2_contingency` on the concatenated value counts of
`ref_chunk.data[col]` and `ana_chunk.data[col]`, then store
`chunk_drift[f'{col}_statistic']` and `chunk_drift[f'{col}_p_vaLue']`
(the second key spelled with a capital `L`, exactly as in the source, the
p-value rounded to 3 decimals).  A `none` reference chunk is dereferenced
(`ref_chunk.data`) on the first iteration. -/
def processCatCols (fns : DriftTestFns) (refc : Option Chunk) (ana : Chunk) :
    List String → Row → Except Err Row
  | [], row => .ok row
  | col :: rest, row =>
    match refc with
    | none => .error .attributeErrorNone
    | some rc =>
      match colData rc col with
      | none => .error (.keyError col)
      | some refVals =>
        match colData ana col with
        | none => .error (.keyError col)
        | some anaVals =>
          let sp := fns.chi2_contingency
            (pdConcatCounts (value_counts refVals) (value_counts anaVals))
          processCatCols fns refc ana rest
            (dictUpdate
              (dictUpdate row (col ++ "_statistic") (CellValue.num sp.1))
              (col ++ "_p_vaLue") (CellValue.num (pyRound3 sp.2)))

/-- The continuous loop of `_calculate_drift`: for each `col` in
`cont_cols_ana` run `ks_2samp` on the raw value sequences and store
`chunk_drift[f'{col}_statistic']` and `chunk_drift[f'{col}_p_value']`
(p-value rounded to 3 decimals). -/
def processContCols (fns : DriftTestFns) (refc : Option Chunk) (ana : Chunk) :
    List String → Row → Except Err Row
  | [], row => .ok row
  | col :: rest, row =>
    match refc with
    | none => .error .attributeErrorNone
    | some rc =>
      match colData rc col with
      | none => .error (.keyError col)
      | some refVals =>
        match colData ana col with
        | none => .error (.keyError col)
        | some anaVals =>
          let sp := fns.ks_2samp refVals anaVals
          processContCols fns refc ana rest
            (dictUpdate
              (dictUpdate row (col ++ "_statistic") (CellValue.num sp.1))
              (col ++ "_p_value") (CellValue.num (pyRound3 sp.2)))

/-- One iteration of the `for ref_chunk, ana_chunk in mapped_chunks.items()`
loop body of `_calculate_drift`: start the row dict with
`{'chunk': ana_chunk.key}` (dereferencing a `none` analysis chunk), then run
the categorical and the continuous loops. -/
def driftRowForPair (fns : DriftTestFns) (cat cont : List String) :
    Option Chunk × Option Chunk → Except Err Row
  | (_, none) => .error .attributeErrorNone
  | (refc, some ana) =>
    match processCatCols fns refc ana (setInter (chunkColumns ana) cat)
        [("chunk", CellValue.str ana.key)] with
    | .error e => .error e
    | .ok row1 =>
      match processContCols fns refc ana (setInter (chunkColumns ana) cont) row1 with
      | .error e => .error e
      | .ok row2 => .ok row2

/-- The full loop of `_calculate_drift`: append one row per mapped pair into
the result (a raised exception aborts the whole computation). -/
def driftRows (fns : DriftTestFns) (cat cont : List String) :
    List (Option Chunk × Option Chunk) → Except Err (List Row)
  | [] => .ok []
  | pr :: rest =>
    match driftRowForPair fns cat cont pr with
    | .error e => .error e
    | .ok row =>
      match driftRows fns cat cont rest with
      | .error e => .error e
      | .ok rows => .ok (row :: rows)

/-- `StatisticalDriftCalculator._calculate_drift`: compute the categorical
and continuous column-name lists from the metadata, map reference chunks to
analysis chunks by index, and build one result row per mapped pair. -/
def calculate_drift (fns : DriftTestFns) (md : ModelMetadata)
    (reference_chunks analysis_chunks : List Chunk) : Except Err (List Row) :=
  let categorical_column_names := md.categorical_features.map (·.column_name)
  let continuous_column_names := md.continuous_features.map (·.column_name)
  let mapped_chunks := map_by_index reference_chunks analysis_chunks
  driftRows fns categorical_column_names continuous_column_names mapped_chunks

/-- Modelled from the spec: `BaseDriftCalculator.calculate`
(`nannyml/drift/_base.py`, not under `src/`).  Spec 4.2: fail with
`InvalidArgumentsException` if either input table is empty, preprocess both
tables, chunk both with the same configuration, delegate to
`_calculate_drift`.  Preprocessing and chunking are external collaborators,
taken as function parameters. -/
def BaseDriftCalculator_calculate (fns : DriftTestFns)
    (preprocessFn : DataFrame → ModelMetadata → DataFrame)
    (chunkFn : String → DataFrame → List Chunk)
    (reference_data analysis_data : DataFrame) (md : ModelMetadata)
    (chunk_by : String) : Except Err (List Row) :=
  if reference_data.empty then
    .error (.invalidArguments "reference data contains no rows")
  else if analysis_data.empty then
    .error (.invalidArguments "analysis data contains no rows")
  else
    calculate_drift fns md
      (chunkFn chunk_by (preprocessFn reference_data md))
      (chunkFn chunk_by (preprocessFn analysis_data md))

/-- `calculate_statistical_drift`: construct a fresh (stateless)
`StatisticalDriftCalculator` and run its `calculate`. -/
def calculate_statistical_drift (fns : DriftTestFns)
    (preprocessFn : DataFrame → ModelMetadata → DataFrame)
    (chunkFn : String → DataFrame → List Chunk)
    (reference_data analysis_data : DataFrame) (md : ModelMetadata)
    (chunk_by : String) : Except Err (List Row) :=
  BaseDriftCalculator_calculate fns preprocessFn chunkFn
    reference_data analysis_data md chunk_by

/-- The chunker variants of `nannyml.chunk` (external module; only the choice
among them, made in `BasePerformanceEstimator.__init__`, is embedded). -/
inductive Chunker where
  | sizeBased (chunk_size : Int)
  | countBased (chunk_count : Int)
  | periodBased (offset : String)
  | defaultChunker
deriving DecidableEq, Repr

/-- Python truthiness of an optional integer argument (`None` and `0` are
falsy). -/
def pyTruthyInt : Option Int → Bool
  | none => false
  | some n => decide (n ≠ 0)

/-- Python truthiness of an optional string argument (`None` and `''` are
falsy). -/
def pyTruthyStr : Option String → Bool
  | none => false
  | some s => decide (s ≠ "")

/-- The feature-selection logic of `PerformanceEstimator.__init__`:
`if not features: features = [f.column_name for f in self.model_metadata.features]`
— both `None` and an empty list are falsy, so both fall back to every
feature declared in the metadata. -/
def resolveFeatures (md : ModelMetadata) : Option (List String) → List String
  | none => md.features.map (·.column_name)
  | some [] => md.features.map (·.column_name)
  | some fs => fs

/-- The state of a `BasePerformanceEstimator` instance after `__init__`:
the metadata, the selected features and the chunker attribute (an `Option`
because `estimate` guards on `self.chunker is None`). -/
structure BasePerformanceEstimator where
  model_metadata : ModelMetadata
  selected_features : List String
  chunker : Option Chunker
deriving DecidableEq, Repr

/-- `PerformanceEstimator.__init__` (the parent constructor): store the
metadata and resolve the selected features. -/
def PerformanceEstimator_init (md : ModelMetadata) (features : Option (List String)) :
    ModelMetadata × List String :=
  (md, resolveFeatures md features)

/-- `BasePerformanceEstimator.__init__`: run the parent constructor, then —
when no explicit chunker was given — pick the chunker from the first truthy
sizing parameter in the order `chunk_size`, `chunk_number`, `chunk_period`,
falling back to the default chunker.  The constructor can only return
normally (modelled as `Except` to make the absence of a raised
`InvalidConfiguration` a stated fact rather than a typing accident). -/
def BasePerformanceEstimator_init (md : ModelMetadata)
    (features : Option (List String)) (chunk_size chunk_number : Option Int)
    (chunk_period : Option String) (chunker : Option Chunker) :
    Except Err BasePerformanceEstimator :=
  let parent := PerformanceEstimator_init md features
  let ch : Chunker :=
    match chunker with
    | some c => c
    | none =>
      if pyTruthyInt chunk_size then Chunker.sizeBased (chunk_size.getD 0)
      else if pyTruthyInt chunk_number then Chunker.countBased (chunk_number.getD 0)
      else if pyTruthyStr chunk_period then Chunker.periodBased (chunk_period.getD "")
      else Chunker.defaultChunker
  .ok { model_metadata := parent.1, selected_features := parent.2, chunker := some ch }

/-- Observable side effects of `fit`/`estimate`, in execution order: calls
into the external preprocessor, the chunker split and the abstract
per-algorithm hooks. -/
inductive Effect where
  | preprocessCall
  | chunkerSplit
  | fitHook
  | estimateHook
deriving DecidableEq, Repr

/-- Modelled from the spec: the fixed internal metadata column names
(`NML_METADATA_COLUMNS` of the external module `nannyml.metadata`). -/
def NML_METADATA_COLUMNS : List String :=
  ["nml_meta_partition", "nml_meta_prediction", "nml_meta_target"]

/-- The result wrapper returned by `estimate` (its payload is irrelevant to
the embedded control flow). -/
structure PerformanceEstimatorResult where
  data : DataFrame
  metadata : ModelMetadata
deriving DecidableEq, Repr

/-- `BasePerformanceEstimator.fit`: raise `InvalidArgumentsException` when
the reference data is empty (before anything else runs), otherwise
preprocess and delegate to the abstract `_fit` hook.  The second component
records which external calls were performed. -/
def BasePerformanceEstimator_fit
    (preprocessFn : DataFrame → ModelMetadata → DataFrame)
    (fitHook : DataFrame → Except Err Unit)
    (est : BasePerformanceEstimator) (reference_data : DataFrame) :
    Except Err Unit × List Effect :=
  if reference_data.empty then
    (.error (.invalidArguments
      "reference data contains no rows. Provide a valid reference data set."), [])
  else
    let d := preprocessFn reference_data est.model_metadata
    (fitHook d, [Effect.preprocessCall, Effect.fitHook])

/-- The `_fit` hook of the base class itself: `raise NotImplementedError`. -/
def base_fit_hook : DataFrame → Except Err Unit :=
  fun _ => .error .notImplemented

/-- The `_estimate` hook of the base class itself: `raise NotImplementedError`. -/
def base_estimate_hook : List Chunk → Except Err PerformanceEstimatorResult :=
  fun _ => .error .notImplemented

/-- `BasePerformanceEstimator.estimate`: raise `InvalidArgumentsException`
when the data is empty; otherwise preprocess, then — only if
`self.chunker is None` — raise `NotFittedException`; otherwise split into
chunks over the metadata plus selected-feature columns and delegate to the
abstract `_estimate` hook.  The second component records which external
calls were performed, in order. -/
def BasePerformanceEstimator_estimate
    (preprocessFn : DataFrame → ModelMetadata → DataFrame)
    (splitFn : Chunker → DataFrame → List String → List Chunk)
    (estimateHook : List Chunk → Except Err PerformanceEstimatorResult)
    (est : BasePerformanceEstimator) (data : DataFrame) :
    Except Err PerformanceEstimatorResult × List Effect :=
  if data.empty then
    (.error (.invalidArguments "data contains no rows. Provide a valid data set."), [])
  else
    let d := preprocessFn data est.model_metadata
    let features_and_metadata := NML_METADATA_COLUMNS ++ est.selected_features
    match est.chunker with
    | none =>
      (.error (.notFitted
        "chunker has not been set. Please ensure you run ``estimator.fit()`` before running ``estimator.estimate()``"),
       [Effect.preprocessCall])
    | some c =>
      let chunks := splitFn c d features_and_metadata
      (estimateHook chunks,
       [Effect.preprocessCall, Effect.chunkerSplit, Effect.estimateHook])

/-! ### Helper lemmas: distinctness of result-row keys

The result-row dict uses the keys `"chunk"`, `col ++ "_statistic"`,
`col ++ "_p_value"` and `col ++ "_p_vaLue"`.  The suffixes pairwise differ
on their reversed character lists, so keys built from different suffixes
never collide, and keys built from the same suffix collide only for the
same column. -/

lemma isPrefixOf_false_append_ne :
    ∀ (p1 p2 t1 t2 : List Char), p1.isPrefixOf p2 = false →
      p2.isPrefixOf p1 = false → p1 ++ t1 ≠ p2 ++ t2
  | [], p2, t1, t2, h1, _ => by simp [List.isPrefixOf] at h1
  | a :: p1, [], t1, t2, _, h2 => by simp [List.isPrefixOf] at h2
  | a :: p1, b :: p2, t1, t2, h1, h2 => by
    by_cases hab : a = b
    · subst hab
      simp only [List.isPrefixOf, beq_self_eq_true, Bool.true_and] at h1 h2
      intro h
      simp only [List.cons_append, List.cons.injEq, true_and] at h
      exact isPrefixOf_false_append_ne p1 p2 t1 t2 h1 h2 h
    · intro h
      simp only [List.cons_append, List.cons.injEq] at h
      exact hab h.1

lemma string_append_ne_of_rev_not_prefix (c1 s1 c2 s2 : String)
    (h1 : (s1.data.reverse).isPrefixOf (s2.data.reverse) = false)
    (h2 : (s2.data.reverse).isPrefixOf (s1.data.reverse) = false) :
    c1 ++ s1 ≠ c2 ++ s2 := by
  intro h
  have hd : (c1 ++ s1).data = (c2 ++ s2).data := by rw [h]
  rw [String.data_append, String.data_append] at hd
  have hrev : s1.data.reverse ++ c1.data.reverse
      = s2.data.reverse ++ c2.data.reverse := by
    have := congrArg List.reverse hd
    simpa [List.reverse_append] using this
  exact isPrefixOf_false_append_ne _ _ _ _ h1 h2 hrev

lemma stat_key_ne_pvalue_key (c1 c2 : String) :
    c1 ++ "_statistic" ≠ c2 ++ "_p_value" :=
  string_append_ne_of_rev_not_prefix c1 "_statistic" c2 "_p_value"
    (by decide) (by decide)

lemma stat_key_ne_pvaLue_key (c1 c2 : String) :
    c1 ++ "_statistic" ≠ c2 ++ "_p_vaLue" :=
  string_append_ne_of_rev_not_prefix c1 "_statistic" c2 "_p_vaLue"
    (by decide) (by decide)

lemma pvalue_key_ne_pvaLue_key (c1 c2 : String) :
    c1 ++ "_p_value" ≠ c2 ++ "_p_vaLue" :=
  string_append_ne_of_rev_not_prefix c1 "_p_value" c2 "_p_vaLue"
    (by decide) (by decide)

lemma stat_key_ne_chunk (c : String) : c ++ "_statistic" ≠ "chunk" := by
  have h := string_append_ne_of_rev_not_prefix c "_statistic" "" "chunk"
    (by decide) (by decide)
  intro hc
  exact h (by rw [hc]; rfl)

lemma pvalue_key_ne_chunk (c : String) : c ++ "_p_value" ≠ "chunk" := by
  have h := string_append_ne_of_rev_not_prefix c "_p_value" "" "chunk"
    (by decide) (by decide)
  intro hc
  exact h (by rw [hc]; rfl)

lemma pvaLue_key_ne_chunk (c : String) : c ++ "_p_vaLue" ≠ "chunk" := by
  have h := string_append_ne_of_rev_not_prefix c "_p_vaLue" "" "chunk"
    (by decide) (by decide)
  intro hc
  exact h (by rw [hc]; rfl)

lemma append_suffix_inj {c1 c2 s : String} (h : c1 ++ s = c2 ++ s) : c1 = c2 := by
  have hd : (c1 ++ s).data = (c2 ++ s).data := by rw [h]
  rw [String.data_append, String.data_append] at hd
  exact String.ext (List.append_cancel_right hd)

/-! ### Helper lemmas: dict operations -/

lemma dictUpdate_head_ne {β : Type} (k0 : String) (v0 : β) (t : List (String × β))
    (k : String) (v : β) (h : k0 ≠ k) :
    dictUpdate ((k0, v0) :: t) k v = (k0, v0) :: dictUpdate t k v := by
  simp [dictUpdate, h]

lemma dictGet_dictUpdate_self {β : Type} (row : List (String × β)) (k : String) (v : β) :
    dictGet (dictUpdate row k v) k = some v := by
  induction row with
  | nil => simp [dictUpdate, dictGet]
  | cons p rest ih =>
    by_cases h : p.1 = k
    · simp [dictUpdate, dictGet, h]
    · simpa [dictUpdate, dictGet, h] using ih

lemma dictGet_dictUpdate_ne {β : Type} (row : List (String × β)) (k' k : String)
    (v : β) (h : k' ≠ k) :
    dictGet (dictUpdate row k' v) k = dictGet row k := by
  induction row with
  | nil => simp [dictUpdate, dictGet, h]
  | cons p rest ih =>
    by_cases hp : p.1 = k'
    · simp [dictUpdate, dictGet, hp, h, hp ▸ h]
    · simp only [dictUpdate, hp, if_false]
      by_cases hk : p.1 = k
      · simp [dictGet, hk]
      · simpa [dictGet, hk] using ih

/-! ### Helper lemmas: rounding -/

lemma roundHalfEven_abs_sub (x : Rat) : |(roundHalfEven x : Rat) - x| ≤ 1/2 := by
  have hfl : ((⌊x⌋ : Int) : Rat) ≤ x := Int.floor_le x
  have hfu : x < (⌊x⌋ : Int) + 1 := Int.lt_floor_add_one x
  rw [roundHalfEven]
  split
  · next h => rw [abs_le]; constructor <;> linarith
  · split
    · next h h' => rw [abs_le]; push_cast; constructor <;> linarith
    · next h h' =>
      have hr : x - (⌊x⌋ : Int) = 1/2 := by linarith
      split
      · rw [abs_le]; push_cast at hr ⊢; constructor <;> linarith
      · rw [abs_le]; push_cast at hr ⊢; constructor <;> linarith

lemma roundHalfEven_nonneg (x : Rat) (h : 0 ≤ x) : 0 ≤ roundHalfEven x := by
  have hf : (0 : Int) ≤ ⌊x⌋ := Int.floor_nonneg.mpr h
  rw [roundHalfEven]
  split
  · exact hf
  · split
    · omega
    · split <;> omega

lemma roundHalfEven_le (x : Rat) (n : Int) (h : x ≤ (n : Rat)) :
    roundHalfEven x ≤ n := by
  have hf : ⌊x⌋ ≤ n := Int.floor_le_floor h |>.trans_eq (Int.floor_intCast n)
  rw [roundHalfEven]
  split
  · exact hf
  · next hlt =>
    have hx : ((⌊x⌋ : Int) : Rat) < x := by
      have hge : (1:Rat)/2 ≤ x - (⌊x⌋ : Int) := le_of_not_lt hlt
      linarith
    have : ⌊x⌋ < n := by
      by_contra hcon
      push_neg at hcon
      have : (n : Rat) ≤ ((⌊x⌋ : Int) : Rat) := by exact_mod_cast hcon
      linarith
    split
    · omega
    · split <;> omega

lemma pyRound3_thousandth (x : Rat) : ∃ n : Int, pyRound3 x = (n : Rat) / 1000 :=
  ⟨roundHalfEven (x * 1000), rfl⟩

lemma pyRound3_nonneg (x : Rat) (h : 0 ≤ x) : 0 ≤ pyRound3 x := by
  have : (0 : Int) ≤ roundHalfEven (x * 1000) :=
    roundHalfEven_nonneg _ (by positivity)
  rw [pyRound3]
  positivity

lemma pyRound3_le_one (x : Rat) (h : x ≤ 1) : pyRound3 x ≤ 1 := by
  have h1000 : x * 1000 ≤ ((1000 : Int) : Rat) := by push_cast; linarith
  have := roundHalfEven_le (x * 1000) 1000 h1000
  rw [pyRound3]
  rw [div_le_one (by norm_num)]
  exact_mod_cast this

lemma pyRound3_abs_sub (x : Rat) : |pyRound3 x - x| ≤ 1/2000 := by
  have h := roundHalfEven_abs_sub (x * 1000)
  rw [pyRound3]
  have hne : (1000 : Rat) ≠ 0 := by norm_num
  have : (roundHalfEven (x * 1000) : Rat) / 1000 - x
      = ((roundHalfEven (x * 1000) : Rat) - x * 1000) / 1000 := by
    field_simp
    ring
  rw [this, abs_div]
  rw [abs_of_pos (show (0:Rat) < 1000 by norm_num)]
  rw [div_le_iff₀ (by norm_num : (0:Rat) < 1000)]
  calc |(roundHalfEven (x * 1000) : Rat) - x * 1000| ≤ 1/2 := h
    _ = 1/2000 * 1000 := by norm_num

/-! ### Helper lemmas: membership -/

lemma mem_setInter {x : String} {xs ys : List String} :
    x ∈ setInter xs ys ↔ x ∈ xs ∧ x ∈ ys := by
  simp [setInter, List.mem_filter, List.mem_dedup]

lemma setInter_nodup (xs ys : List String) : (setInter xs ys).Nodup :=
  (List.nodup_dedup xs).filter _

lemma find?_col_isSome :
    ∀ (l : List (String × List Rat)) (col : String), col ∈ l.map Prod.fst →
      ((l.find? (fun p => decide (p.1 = col))).map Prod.snd).isSome
  | [], col, h => by simp at h
  | p :: rest, col, h => by
    by_cases hp : p.1 = col
    · simp [List.find?_cons, hp]
    · have hmem : col ∈ rest.map Prod.fst := by
        rcases List.mem_cons.mp h with h1 | h1
        · exact absurd h1.symm hp
        · exact h1
      simpa [List.find?_cons, hp] using find?_col_isSome rest col hmem

lemma colData_isSome_of_mem {a : Chunk} {col : String} (h : col ∈ chunkColumns a) :
    (colData a col).isSome :=
  find?_col_isSome a.data col h

/-! ### Helper lemmas: the categorical loop -/

lemma processCatCols_preserve (fns : DriftTestFns) (refc : Option Chunk) (ana : Chunk) :
    ∀ (cols : List String) (row row' : Row) (K : String),
      processCatCols fns refc ana cols row = .ok row' →
      (∀ c ∈ cols, c ++ "_statistic" ≠ K ∧ c ++ "_p_vaLue" ≠ K) →
      dictGet row' K = dictGet row K := by
  intro cols
  induction cols with
  | nil =>
    intro row row' K h _
    simp only [processCatCols] at h
    cases h
    rfl
  | cons c rest ih =>
    intro row row' K h hK
    cases refc with
    | none => simp only [processCatCols] at h; exact absurd h (by simp)
    | some rc =>
      simp only [processCatCols] at h
      cases hrd : colData rc c with
      | none => rw [hrd] at h; exact absurd h (by simp)
      | some rv =>
        rw [hrd] at h
        cases had : colData ana c with
        | none => rw [had] at h; exact absurd h (by simp)
        | some av =>
          rw [had] at h
          have hpres := ih _ _ K h (fun c' hc' => hK c' (List.mem_cons_of_mem _ hc'))
          rw [hpres,
            dictGet_dictUpdate_ne _ _ _ _ (hK c (List.mem_cons_self _ _)).2,
            dictGet_dictUpdate_ne _ _ _ _ (hK c (List.mem_cons_self _ _)).1]

lemma processCatCols_sets (fns : DriftTestFns) (rc ana : Chunk) :
    ∀ (cols : List String) (row row' : Row) (col : String) (rv av : List Rat),
      processCatCols fns (some rc) ana cols row = .ok row' →
      cols.Nodup → col ∈ cols →
      colData rc col = some rv → colData ana col = some av →
      dictGet row' (col ++ "_statistic")
        = some (CellValue.num (fns.chi2_contingency
            (pdConcatCounts (value_counts rv) (value_counts av))).1)
      ∧ dictGet row' (col ++ "_p_vaLue")
        = some (CellValue.num (pyRound3 (fns.chi2_contingency
            (pdConcatCounts (value_counts rv) (value_counts av))).2)) := by
  intro cols
  induction cols with
  | nil => intro row row' col rv av _ _ hmem; simp at hmem
  | cons c rest ih =>
    intro row row' col rv av h hnd hmem hrv hav
    simp only [processCatCols] at h
    cases hrd : colData rc c with
    | none => rw [hrd] at h; exact absurd h (by simp)
    | some rv' =>
      rw [hrd] at h
      cases had : colData ana c with
      | none => rw [had] at h; exact absurd h (by simp)
      | some av' =>
        rw [had] at h
        by_cases hc : c = col
        · subst hc
          have hrv' : rv' = rv := (Option.some.inj (hrv ▸ hrd)).symm
          have hav' : av' = av := (Option.some.inj (hav ▸ had)).symm
          subst hrv'
          subst hav'
          have hcnotin : c ∉ rest := (List.nodup_cons.mp hnd).1
          have hKstat : ∀ c' ∈ rest,
              c' ++ "_statistic" ≠ c ++ "_statistic"
              ∧ c' ++ "_p_vaLue" ≠ c ++ "_statistic" := by
            intro c' hc'
            refine ⟨fun heq => ?_, (stat_key_ne_pvaLue_key c c').symm⟩
            exact hcnotin (append_suffix_inj heq ▸ hc')
          have hKpv : ∀ c' ∈ rest,
              c' ++ "_statistic" ≠ c ++ "_p_vaLue"
              ∧ c' ++ "_p_vaLue" ≠ c ++ "_p_vaLue" := by
            intro c' hc'
            refine ⟨stat_key_ne_pvaLue_key c' c, fun heq => ?_⟩
            exact hcnotin (append_suffix_inj heq ▸ hc')
          constructor
          · rw [processCatCols_preserve fns (some rc) ana rest _ _ _ h hKstat,
              dictGet_dictUpdate_ne _ _ _ _ (stat_key_ne_pvaLue_key c c).symm,
              dictGet_dictUpdate_self]
          · rw [processCatCols_preserve fns (some rc) ana rest _ _ _ h hKpv,
              dictGet_dictUpdate_self]
        · have hmem' : col ∈ rest := by
            rcases List.mem_cons.mp hmem with h1 | h1
            · exact absurd h1.symm hc
            · exact h1
          exact ih _ _ col rv av h (List.nodup_cons.mp hnd).2 hmem' hrv hav

lemma processCatCols_ok_head (fns : DriftTestFns) (rc ana : Chunk) :
    ∀ (cols : List String) (v : CellValue) (t : Row),
      (∀ c ∈ cols, (colData rc c).isSome ∧ (colData ana c).isSome) →
      ∃ t', processCatCols fns (some rc) ana cols (("chunk", v) :: t)
        = .ok (("chunk", v) :: t') := by
  intro cols
  induction cols with
  | nil => intro v t _; exact ⟨t, rfl⟩
  | cons c rest ih =>
    intro v t hall
    obtain ⟨hr, ha⟩ := hall c (List.mem_cons_self _ _)
    obtain ⟨rv, hrv⟩ := Option.isSome_iff_exists.mp hr
    obtain ⟨av, hav⟩ := Option.isSome_iff_exists.mp ha
    simp only [processCatCols, hrv, hav]
    rw [dictUpdate_head_ne _ _ _ _ _ (stat_key_ne_chunk c).symm,
      dictUpdate_head_ne _ _ _ _ _ (pvaLue_key_ne_chunk c).symm]
    exact ih v _ (fun c' hc' => hall c' (List.mem_cons_of_mem _ hc'))

/-! ### Helper lemmas: the continuous loop -/

lemma processContCols_preserve (fns : DriftTestFns) (refc : Option Chunk) (ana : Chunk) :
    ∀ (cols : List String) (row row' : Row) (K : String),
      processContCols fns refc ana cols row = .ok row' →
      (∀ c ∈ cols, c ++ "_statistic" ≠ K ∧ c ++ "_p_value" ≠ K) →
      dictGet row' K = dictGet row K := by
  intro cols
  induction cols with
  | nil =>
    intro row row' K h _
    simp only [processContCols] at h
    cases h
    rfl
  | cons c rest ih =>
    intro row row' K h hK
    cases refc with
    | none => simp only [processContCols] at h; exact absurd h (by simp)
    | some rc =>
      simp only [processContCols] at h
      cases hrd : colData rc c with
      | none => rw [hrd] at h; exact absurd h (by simp)
      | some rv =>
        rw [hrd] at h
        cases had : colData ana c with
        | none => rw [had] at h; exact absurd h (by simp)
        | some av =>
          rw [had] at h
          have hpres := ih _ _ K h (fun c' hc' => hK c' (List.mem_cons_of_mem _ hc'))
          rw [hpres,
            dictGet_dictUpdate_ne _ _ _ _ (hK c (List.mem_cons_self _ _)).2,
            dictGet_dictUpdate_ne _ _ _ _ (hK c (List.mem_cons_self _ _)).1]

lemma processContCols_sets (fns : DriftTestFns) (rc ana : Chunk) :
    ∀ (cols : List String) (row row' : Row) (col : String) (rv av : List Rat),
      processContCols fns (some rc) ana cols row = .ok row' →
      cols.Nodup → col ∈ cols →
      colData rc col = some rv → colData ana col = some av →
      dictGet row' (col ++ "_statistic")
        = some (CellValue.num (fns.ks_2samp rv av).1)
      ∧ dictGet row' (col ++ "_p_value")
        = some (CellValue.num (pyRound3 (fns.ks_2samp rv av).2)) := by
  intro cols
  induction cols with
  | nil => intro row row' col rv av _ _ hmem; simp at hmem
  | cons c rest ih =>
    intro row row' col rv av h hnd hmem hrv hav
    simp only [processContCols] at h
    cases hrd : colData rc c with
    | none => rw [hrd] at h; exact absurd h (by simp)
    | some rv' =>
      rw [hrd] at h
      cases had : colData ana c with
      | none => rw [had] at h; exact absurd h (by simp)
      | some av' =>
        rw [had] at h
        by_cases hc : c = col
        · subst hc
          have hrv' : rv' = rv := (Option.some.inj (hrv ▸ hrd)).symm
          have hav' : av' = av := (Option.some.inj (hav ▸ had)).symm
          subst hrv'
          subst hav'
          have hcnotin : c ∉ rest := (List.nodup_cons.mp hnd).1
          have hKstat : ∀ c' ∈ rest,
              c' ++ "_statistic" ≠ c ++ "_statistic"
              ∧ c' ++ "_p_value" ≠ c ++ "_statistic" := by
            intro c' hc'
            refine ⟨fun heq => ?_, (stat_key_ne_pvalue_key c c').symm⟩
            exact hcnotin (append_suffix_inj heq ▸ hc')
          have hKpv : ∀ c' ∈ rest,
              c' ++ "_statistic" ≠ c ++ "_p_value"
              ∧ c' ++ "_p_value" ≠ c ++ "_p_value" := by
            intro c' hc'
            refine ⟨stat_key_ne_pvalue_key c' c, fun heq => ?_⟩
            exact hcnotin (append_suffix_inj heq ▸ hc')
          constructor
          · rw [processContCols_preserve fns (some rc) ana rest _ _ _ h hKstat,
              dictGet_dictUpdate_ne _ _ _ _ (stat_key_ne_pvalue_key c c).symm,
              dictGet_dictUpdate_self]
          · rw [processContCols_preserve fns (some rc) ana rest _ _ _ h hKpv,
              dictGet_dictUpdate_self]
        · have hmem' : col ∈ rest := by
            rcases List.mem_cons.mp hmem with h1 | h1
            · exact absurd h1.symm hc
            · exact h1
          exact ih _ _ col rv av h (List.nodup_cons.mp hnd).2 hmem' hrv hav

lemma processContCols_ok_head (fns : DriftTestFns) (rc ana : Chunk) :
    ∀ (cols : List String) (v : CellValue) (t : Row),
      (∀ c ∈ cols, (colData rc c).isSome ∧ (colData ana c).isSome) →
      ∃ t', processContCols fns (some rc) ana cols (("chunk", v) :: t)
        = .ok (("chunk", v) :: t') := by
  intro cols
  induction cols with
  | nil => intro v t _; exact ⟨t, rfl⟩
  | cons c rest ih =>
    intro v t hall
    obtain ⟨hr, ha⟩ := hall c (List.mem_cons_self _ _)
    obtain ⟨rv, hrv⟩ := Option.isSome_iff_exists.mp hr
    obtain ⟨av, hav⟩ := Option.isSome_iff_exists.mp ha
    simp only [processContCols, hrv, hav]
    rw [dictUpdate_head_ne _ _ _ _ _ (stat_key_ne_chunk c).symm,
      dictUpdate_head_ne _ _ _ _ _ (pvalue_key_ne_chunk c).symm]
    exact ih v _ (fun c' hc' => hall c' (List.mem_cons_of_mem _ hc'))

/-! ### Helper lemmas: whole-row and whole-result success -/

/-- A paired (reference, analysis) chunk can be tested without a pandas
`KeyError`: every feature column present in the analysis slice is present in
the reference slice too (this always holds when both data sets were chunked
from identically-shaped frames). -/
def pairTestable (cat cont : List String) (r a : Chunk) : Prop :=
  ∀ col ∈ chunkColumns a, (col ∈ cat ∨ col ∈ cont) → (colData r col).isSome

instance pairTestableDecidable (cat cont : List String) (r a : Chunk) :
    Decidable (pairTestable cat cont r a) := by
  unfold pairTestable
  infer_instance

lemma driftRowForPair_ok (fns : DriftTestFns) (cat cont : List String) (r a : Chunk)
    (h : pairTestable cat cont r a) :
    ∃ t, driftRowForPair fns cat cont (some r, some a)
      = .ok (("chunk", CellValue.str a.key) :: t) := by
  have hcat : ∀ c ∈ setInter (chunkColumns a) cat,
      (colData r c).isSome ∧ (colData a c).isSome := by
    intro c hc
    obtain ⟨hca, hcc⟩ := mem_setInter.mp hc
    exact ⟨h c hca (Or.inl hcc), colData_isSome_of_mem hca⟩
  have hcont : ∀ c ∈ setInter (chunkColumns a) cont,
      (colData r c).isSome ∧ (colData a c).isSome := by
    intro c hc
    obtain ⟨hca, hcc⟩ := mem_setInter.mp hc
    exact ⟨h c hca (Or.inr hcc), colData_isSome_of_mem hca⟩
  obtain ⟨t1, ht1⟩ :=
    processCatCols_ok_head fns r a (setInter (chunkColumns a) cat)
      (CellValue.str a.key) [] hcat
  obtain ⟨t2, ht2⟩ :=
    processContCols_ok_head fns r a (setInter (chunkColumns a) cont)
      (CellValue.str a.key) t1 hcont
  refine ⟨t2, ?_⟩
  simp only [driftRowForPair, ht1, ht2]

lemma dictGet_chunk_head {β : Type} (v : β) (t : List (String × β)) :
    dictGet (("chunk", v) :: t) "chunk" = some v := by
  simp [dictGet]

lemma driftRows_ok (fns : DriftTestFns) (cat cont : List String) :
    ∀ (ps : List (Chunk × Chunk)),
      (∀ p ∈ ps, pairTestable cat cont p.1 p.2) →
      ∃ rows,
        driftRows fns cat cont (ps.map (fun p => (some p.1, some p.2))) = .ok rows
        ∧ rows.map (fun row => dictGet row "chunk")
            = ps.map (fun p => some (CellValue.str p.2.key))
        ∧ rows.length = ps.length := by
  intro ps
  induction ps with
  | nil => exact fun _ => ⟨[], rfl, rfl, rfl⟩
  | cons p rest ih =>
    intro hall
    obtain ⟨t, ht⟩ :=
      driftRowForPair_ok fns cat cont p.1 p.2 (hall p (List.mem_cons_self _ _))
    obtain ⟨rows, hrows, hmap, hlen⟩ :=
      ih (fun q hq => hall q (List.mem_cons_of_mem _ hq))
    refine ⟨(("chunk", CellValue.str p.2.key) :: t) :: rows, ?_, ?_, ?_⟩
    · simp only [List.map_cons, driftRows, ht, hrows]
    · simp only [List.map_cons, hmap, List.cons.injEq, and_true]
      exact dictGet_chunk_head _ t
    · simp [hlen]

/-! ### Helper lemmas: `_map_by_index` -/

lemma zipLongest_eq_zip :
    ∀ (rcs acs : List Chunk), rcs.length = acs.length →
      zipLongest rcs acs = (rcs.zip acs).map (fun p => (some p.1, some p.2))
  | [], [], _ => rfl
  | [], _ :: _, h => by simp at h
  | _ :: _, [], h => by simp at h
  | a :: as, b :: bs, h => by
    simp only [zipLongest, List.zip_cons_cons, List.map_cons]
    exact congrArg _ (zipLongest_eq_zip as bs (by simpa using h))

lemma dictUpdate_not_mem {α β : Type} [DecidableEq α] :
    ∀ (d : List (α × β)) (k : α) (v : β), k ∉ d.map Prod.fst →
      dictUpdate d k v = d ++ [(k, v)]
  | [], _, _, _ => rfl
  | (k', v') :: rest, k, v, h => by
    have hne : k' ≠ k := by
      intro he
      exact h (by simp [he])
    rw [show dictUpdate ((k', v') :: rest) k v
        = (k', v') :: dictUpdate rest k v by simp [dictUpdate, hne]]
    rw [dictUpdate_not_mem rest k v (by intro hm; exact h (by simp [hm]))]
    simp

lemma foldl_dictUpdate_nodup {α β : Type} [DecidableEq α] :
    ∀ (ps acc : List (α × β)), ((acc ++ ps).map Prod.fst).Nodup →
      ps.foldl (fun d p => dictUpdate d p.1 p.2) acc = acc ++ ps
  | [], acc, _ => by simp
  | p :: rest, acc, h => by
    have hnotin : p.1 ∉ acc.map Prod.fst := by
      rw [List.map_append] at h
      obtain ⟨-, -, hdisj⟩ := List.nodup_append.mp h
      intro hmem
      exact hdisj hmem (by simp)
    rw [List.foldl_cons, dictUpdate_not_mem acc p.1 p.2 hnotin]
    have h' : (((acc ++ [p]) ++ rest).map Prod.fst).Nodup := by
      simpa [List.append_assoc] using h
    have := foldl_dictUpdate_nodup rest (acc ++ [p]) h'
    simpa [List.append_assoc] using this

lemma dictOfPairs_eq_self {α β : Type} [DecidableEq α] (ps : List (α × β))
    (h : (ps.map Prod.fst).Nodup) : dictOfPairs ps = ps := by
  simpa using foldl_dictUpdate_nodup ps [] (by simpa using h)

lemma map_by_index_eq_zip (rcs acs : List Chunk) (hlen : rcs.length = acs.length)
    (hnd : rcs.Nodup) :
    map_by_index rcs acs = (rcs.zip acs).map (fun p => (some p.1, some p.2)) := by
  rw [map_by_index, zipLongest_eq_zip rcs acs hlen]
  apply dictOfPairs_eq_self
  have h1 : ((rcs.zip acs).map (fun p : Chunk × Chunk => (some p.1, some p.2))).map
        Prod.fst
      = ((rcs.zip acs).map Prod.fst).map Option.some := by
    simp [Function.comp]
  rw [h1, List.map_fst_zip rcs acs (le_of_eq hlen)]
  exact hnd.map (fun _ _ => Option.some.inj)

/-! ### Concrete objects used by closed theorems and witnesses -/

/-- Trivial instantiation of the external statistical tests. -/
def fnsW : DriftTestFns := ⟨fun _ => (0, 0), fun _ _ => (0, 0)⟩

/-- Metadata with no features. -/
def mdEmpty : ModelMetadata := ⟨[]⟩

/-- Metadata with one continuous feature `score`. -/
def mdScore : ModelMetadata := ⟨[⟨"score", FeatureType.continuous⟩]⟩

/-- Metadata with one categorical feature `region`. -/
def mdRegion : ModelMetadata := ⟨[⟨"region", FeatureType.categorical⟩]⟩

/-- Metadata with one categorical feature `region` and one continuous
feature `score`. -/
def mdBoth : ModelMetadata :=
  ⟨[⟨"region", FeatureType.categorical⟩, ⟨"score", FeatureType.continuous⟩]⟩

/-- An empty data frame. -/
def dfEmpty : DataFrame := ⟨[]⟩

/-- A one-row data frame. -/
def dfOne : DataFrame := ⟨[[0]]⟩

lemma pyRound3_zero : pyRound3 0 = 0 := by
  simp [pyRound3, roundHalfEven]

/-- C10: constructing a (Base)PerformanceEstimator with `features=[]` is the
same as passing no feature list: `selected_features` defaults to every
feature column declared in the model metadata, so zero features cannot be
requested at construction. -/
theorem C10_empty_feature_list_defaults (md : ModelMetadata)
    (chunk_size chunk_number : Option Int) (chunk_period : Option String)
    (chunker : Option Chunker) :
    BasePerformanceEstimator_init md (some []) chunk_size chunk_number
        chunk_period chunker
      = BasePerformanceEstimator_init md none chunk_size chunk_number
        chunk_period chunker
    ∧ resolveFeatures md (some []) = md.features.map (·.column_name)
    ∧ PerformanceEstimator_init md (some [])
      = PerformanceEstimator_init md none :=
  ⟨rfl, rfl, rfl⟩

/-- C3 counterexample: constructing with both `chunk_size=100` and
`chunk_number=10` does not raise `InvalidConfiguration`; it succeeds and
silently selects the size-based chunker. -/
theorem C3_counterexample_no_invalid_configuration :
    BasePerformanceEstimator_init mdEmpty none (some 100) (some 10) none none
      = .ok ⟨mdEmpty, [], some (Chunker.sizeBased 100)⟩ := by
  rfl

/-- C3 amended: construction without an explicit chunker never fails,
whatever combination of sizing parameters is supplied; the chunker is chosen
by Python truthiness in the strict precedence order `chunk_size`,
`chunk_number`, `chunk_period`, falling back to the default chunker — so a
falsy `chunk_size=0` is passed over, `chunk_number` beats `chunk_period`
when both are supplied without a truthy `chunk_size`, and no
`InvalidConfiguration` is ever raised. -/
theorem C3_amended_silent_precedence (md : ModelMetadata)
    (features : Option (List String)) (sz n : Option Int) (p : Option String) :
    (∀ e, BasePerformanceEstimator_init md features sz n p none ≠ .error e)
    ∧ (pyTruthyInt sz = true →
        BasePerformanceEstimator_init md features sz n p none
          = .ok ⟨md, resolveFeatures md features,
              some (Chunker.sizeBased (sz.getD 0))⟩)
    ∧ (pyTruthyInt sz = false → pyTruthyInt n = true →
        BasePerformanceEstimator_init md features sz n p none
          = .ok ⟨md, resolveFeatures md features,
              some (Chunker.countBased (n.getD 0))⟩)
    ∧ (pyTruthyInt sz = false → pyTruthyInt n = false → pyTruthyStr p = true →
        BasePerformanceEstimator_init md features sz n p none
          = .ok ⟨md, resolveFeatures md features,
              some (Chunker.periodBased (p.getD ""))⟩)
    ∧ (pyTruthyInt sz = false → pyTruthyInt n = false → pyTruthyStr p = false →
        BasePerformanceEstimator_init md features sz n p none
          = .ok ⟨md, resolveFeatures md features, some Chunker.defaultChunker⟩) := by
  refine ⟨?_, ?_, ?_, ?_, ?_⟩
  · intro e
    simp [BasePerformanceEstimator_init]
  · intro h1
    simp [BasePerformanceEstimator_init, PerformanceEstimator_init, h1]
  · intro h1 h2
    simp [BasePerformanceEstimator_init, PerformanceEstimator_init, h1, h2]
  · intro h1 h2 h3
    simp [BasePerformanceEstimator_init, PerformanceEstimator_init, h1, h2, h3]
  · intro h1 h2 h3
    simp [BasePerformanceEstimator_init, PerformanceEstimator_init, h1, h2, h3]

/-- C3 witness: the amended precedence at concrete inputs — a truthy
`chunk_size=100` wins over `chunk_number=10` and `chunk_period='W'`; a falsy
`chunk_size=0` is passed over in favour of `chunk_number=10`;
`chunk_number=10` beats `chunk_period='W'` when `chunk_size` is absent; and
with `chunk_size=0`, no `chunk_number` and `chunk_period='W'` the
period-based chunker is selected.  No case raises. -/
theorem C3_amended_silent_precedence_witness :
    BasePerformanceEstimator_init mdEmpty none (some 100) (some 10) (some "W") none
      = .ok ⟨mdEmpty, resolveFeatures mdEmpty none, some (Chunker.sizeBased 100)⟩
    ∧ BasePerformanceEstimator_init mdEmpty none (some 0) (some 10) (some "W") none
      = .ok ⟨mdEmpty, resolveFeatures mdEmpty none, some (Chunker.countBased 10)⟩
    ∧ BasePerformanceEstimator_init mdEmpty none none (some 10) (some "W") none
      = .ok ⟨mdEmpty, resolveFeatures mdEmpty none, some (Chunker.countBased 10)⟩
    ∧ BasePerformanceEstimator_init mdEmpty none (some 0) none (some "W") none
      = .ok ⟨mdEmpty, resolveFeatures mdEmpty none, some (Chunker.periodBased "W")⟩ :=
  ⟨(C3_amended_silent_precedence mdEmpty none (some 100) (some 10)
      (some "W")).2.1 (by decide),
   (C3_amended_silent_precedence mdEmpty none (some 0) (some 10)
      (some "W")).2.2.1 (by decide) (by decide),
   (C3_amended_silent_precedence mdEmpty none none (some 10)
      (some "W")).2.2.1 (by decide) (by decide),
   (C3_amended_silent_precedence mdEmpty none (some 0) none
      (some "W")).2.2.2.1 (by decide) (by decide) (by decide)⟩

/-- C6: `fit` and `estimate` raise `InvalidArgumentsException` on an empty
input frame, and do so before preprocessing or any per-algorithm hook runs
(the recorded effect list is empty, so instance state is untouched). -/
theorem C6_empty_input_fails_before_hooks
    (preprocessFn : DataFrame → ModelMetadata → DataFrame)
    (fitHook : DataFrame → Except Err Unit)
    (splitFn : Chunker → DataFrame → List String → List Chunk)
    (estimateHook : List Chunk → Except Err PerformanceEstimatorResult)
    (est : BasePerformanceEstimator) (data : DataFrame)
    (h : data.empty = true) :
    BasePerformanceEstimator_fit preprocessFn fitHook est data
      = (.error (.invalidArguments
          "reference data contains no rows. Provide a valid reference data set."), [])
    ∧ BasePerformanceEstimator_estimate preprocessFn splitFn estimateHook est data
      = (.error (.invalidArguments
          "data contains no rows. Provide a valid data set."), []) := by
  constructor
  · simp [BasePerformanceEstimator_fit, h]
  · simp [BasePerformanceEstimator_estimate, h]

/-- C6 witness: the statement at a concrete empty frame and concrete
collaborators. -/
theorem C6_empty_input_fails_before_hooks_witness :
    BasePerformanceEstimator_fit (fun d _ => d) base_fit_hook
        ⟨mdEmpty, [], some Chunker.defaultChunker⟩ dfEmpty
      = (.error (.invalidArguments
          "reference data contains no rows. Provide a valid reference data set."), [])
    ∧ BasePerformanceEstimator_estimate (fun d _ => d) (fun _ _ _ => [])
        base_estimate_hook ⟨mdEmpty, [], some Chunker.defaultChunker⟩ dfEmpty
      = (.error (.invalidArguments
          "data contains no rows. Provide a valid data set."), []) :=
  C6_empty_input_fails_before_hooks (fun d _ => d) base_fit_hook (fun _ _ _ => [])
    base_estimate_hook ⟨mdEmpty, [], some Chunker.defaultChunker⟩ dfEmpty rfl

/-- C2 (code-bug evaluation): an estimator constructed with all-default
arguments — on which `fit` was never called — already has a chunker
(`DefaultChunker`), so `estimate` on non-empty data passes the
`self.chunker is None` guard, preprocesses, splits and reaches
the `_estimate` hook (`NotImplementedError` in the base class); it does not
raise `NotFittedException`. -/
theorem C2_estimate_unfitted_reaches_hook :
    BasePerformanceEstimator_init mdEmpty none none none none none
      = .ok ⟨mdEmpty, [], some Chunker.defaultChunker⟩
    ∧ BasePerformanceEstimator_estimate (fun d _ => d) (fun _ _ _ => [])
        base_estimate_hook ⟨mdEmpty, [], some Chunker.defaultChunker⟩ dfOne
      = (.error .notImplemented,
         [Effect.preprocessCall, Effect.chunkerSplit, Effect.estimateHook]) := by
  constructor
  · rfl
  · simp [BasePerformanceEstimator_estimate, dfOne, DataFrame.empty, base_estimate_hook]

/-- C9: `calculate_statistical_drift` is deterministic — identical inputs
and configuration yield identical result tables. -/
theorem C9_calculate_deterministic (fns : DriftTestFns)
    (preprocessFn : DataFrame → ModelMetadata → DataFrame)
    (chunkFn : String → DataFrame → List Chunk)
    (r1 a1 r2 a2 : DataFrame) (m1 m2 : ModelMetadata) (cb1 cb2 : String)
    (hr : r1 = r2) (ha : a1 = a2) (hm : m1 = m2) (hcb : cb1 = cb2) :
    calculate_statistical_drift fns preprocessFn chunkFn r1 a1 m1 cb1
      = calculate_statistical_drift fns preprocessFn chunkFn r2 a2 m2 cb2 := by
  rw [hr, ha, hm, hcb]

/-- C9 witness: the statement at a concrete input. -/
theorem C9_calculate_deterministic_witness :
    calculate_statistical_drift fnsW (fun d _ => d) (fun _ _ => [])
        dfOne dfOne mdEmpty "size_1000"
      = calculate_statistical_drift fnsW (fun d _ => d) (fun _ _ => [])
        dfOne dfOne mdEmpty "size_1000" :=
  C9_calculate_deterministic fnsW (fun d _ => d) (fun _ _ => [])
    dfOne dfOne dfOne dfOne mdEmpty mdEmpty "size_1000" "size_1000" rfl rfl rfl rfl

/-- Reference chunk 1 for the unequal-count scenario. -/
def chunkR0 : Chunk := ⟨0, "[0:499]", [("score", [])]⟩

/-- Reference chunk 2 for the unequal-count scenario. -/
def chunkR1 : Chunk := ⟨1, "[500:999]", [("score", [])]⟩

/-- Analysis chunk 1 for the unequal-count scenario. -/
def chunkA0 : Chunk := ⟨2, "[0:499]", [("score", [])]⟩

/-- Analysis chunk 2 for the unequal-count scenario. -/
def chunkA1 : Chunk := ⟨3, "[500:999]", [("score", [])]⟩

/-- C1 (code-bug evaluation): with unequal chunk counts, `_calculate_drift`
dereferences the `None` fill value instead of excluding the unmatched tail:
with 2 reference chunks and 1 analysis chunk the pair `(ref2, None)` crashes
on `ana_chunk.key`; with 1 reference chunk and 2 analysis chunks the pair
`(None, ana2)` crashes on `ref_chunk.data`.  The whole computation raises an
`AttributeError` (is not total) in both directions. -/
theorem C1_unpaired_chunk_dereferences_none :
    calculate_drift fnsW mdScore [chunkR0, chunkR1] [chunkA0]
      = .error .attributeErrorNone
    ∧ calculate_drift fnsW mdScore [chunkR0] [chunkA0, chunkA1]
      = .error .attributeErrorNone := by
  constructor <;>
    simp [calculate_drift, driftRows, driftRowForPair, processContCols,
      processCatCols, map_by_index, zipLongest, dictOfPairs, dictUpdate, setInter,
      chunkColumns, colData, value_counts, pdConcatCounts, pyRound3_zero, mdScore,
      chunkR0, chunkR1, chunkA0, chunkA1, fnsW,
      ModelMetadata.categorical_features, ModelMetadata.continuous_features]

/-- Reference chunk for the categorical-naming scenario. -/
def chunkRr : Chunk := ⟨0, "ref0", [("region", [])]⟩

/-- Analysis chunk for the categorical-naming scenario. -/
def chunkAr : Chunk := ⟨1, "ana0", [("region", [])]⟩

/-- C4 (code-bug evaluation): the categorical branch records its p-value
under the misspelled column name `region_p_vaLue` (capital `L`), and the
row contains no `region_p_value` column — unlike the continuous branch,
which spells `_p_value` correctly. -/
theorem C4_categorical_pvalue_column_misnamed :
    calculate_drift fnsW mdRegion [chunkRr] [chunkAr]
      = .ok [[("chunk", CellValue.str "ana0"),
              ("region_statistic", CellValue.num 0),
              ("region_p_vaLue", CellValue.num 0)]]
    ∧ dictGet [("chunk", CellValue.str "ana0"),
              ("region_statistic", CellValue.num 0),
              ("region_p_vaLue", CellValue.num 0)] "region_p_value" = none
    ∧ dictGet [("chunk", CellValue.str "ana0"),
              ("region_statistic", CellValue.num 0),
              ("region_p_vaLue", CellValue.num 0)] "region_p_vaLue"
        = some (CellValue.num 0) := by
  refine ⟨?_, by decide, by decide⟩
  simp [calculate_drift, driftRows, driftRowForPair, processContCols,
    processCatCols, map_by_index, zipLongest, dictOfPairs, dictUpdate, setInter,
    chunkColumns, colData, value_counts, pdConcatCounts, pyRound3_zero, mdRegion,
    chunkRr, chunkAr, fnsW,
    ModelMetadata.categorical_features, ModelMetadata.continuous_features]

/-- C7: for equal chunk counts (pairwise-distinct reference chunk objects,
as Python guarantees by identity) with every tested column present on the
reference side, `_calculate_drift` succeeds with exactly one row per
analysis chunk, keyed by that chunk's key, in analysis order. -/
theorem C7_one_row_per_analysis_chunk_in_order (fns : DriftTestFns)
    (md : ModelMetadata) (rcs acs : List Chunk)
    (hlen : rcs.length = acs.length) (hnd : rcs.Nodup)
    (htest : ∀ p ∈ rcs.zip acs,
      pairTestable (md.categorical_features.map (·.column_name))
        (md.continuous_features.map (·.column_name)) p.1 p.2) :
    ∃ rows, calculate_drift fns md rcs acs = .ok rows
      ∧ rows.length = acs.length
      ∧ rows.map (fun row => dictGet row "chunk")
          = acs.map (fun a => some (CellValue.str a.key)) := by
  obtain ⟨rows, hok, hmap, hlenr⟩ :=
    driftRows_ok fns (md.categorical_features.map (·.column_name))
      (md.continuous_features.map (·.column_name)) (rcs.zip acs) htest
  refine ⟨rows, ?_, ?_, ?_⟩
  · simp only [calculate_drift]
    rw [map_by_index_eq_zip rcs acs hlen hnd]
    exact hok
  · rw [hlenr, List.length_zip, hlen, min_self]
  · rw [hmap]
    have hsnd : (rcs.zip acs).map (fun p => some (CellValue.str p.2.key))
        = ((rcs.zip acs).map Prod.snd).map
            (fun a => some (CellValue.str a.key)) := by
      simp [Function.comp]
    rw [hsnd, List.map_snd_zip rcs acs (le_of_eq hlen.symm)]

/-- C7 witness: the statement at two equal-count chunk lists. -/
theorem C7_one_row_per_analysis_chunk_in_order_witness :
    ∃ rows, calculate_drift fnsW mdScore [chunkR0, chunkR1] [chunkA0, chunkA1]
      = .ok rows
      ∧ rows.length = [chunkA0, chunkA1].length
      ∧ rows.map (fun row => dictGet row "chunk")
          = [chunkA0, chunkA1].map (fun a => some (CellValue.str a.key)) :=
  C7_one_row_per_analysis_chunk_in_order fnsW mdScore [chunkR0, chunkR1]
    [chunkA0, chunkA1] (by decide) (by decide) (by decide)

/-! ### Helper lemmas: row lookups through a whole `driftRowForPair` call -/

lemma driftRow_decompose (fns : DriftTestFns) (cat cont : List String)
    (r a : Chunk) (row : Row)
    (hrow : driftRowForPair fns cat cont (some r, some a) = .ok row) :
    ∃ row1, processCatCols fns (some r) a (setInter (chunkColumns a) cat)
        [("chunk", CellValue.str a.key)] = .ok row1
      ∧ processContCols fns (some r) a (setInter (chunkColumns a) cont) row1
        = .ok row := by
  simp only [driftRowForPair] at hrow
  split at hrow
  · exact absurd hrow (by simp)
  · next row1 heq1 =>
    split at hrow
    · exact absurd hrow (by simp)
    · next row2 heq2 =>
      have hr2 : row2 = row := by injection hrow
      exact ⟨row1, heq1, hr2 ▸ heq2⟩

lemma dictGet_singleton_ne {β : Type} (v : β) (k K : String) (h : k ≠ K) :
    dictGet [(k, v)] K = none := by
  simp [dictGet, h]

lemma driftRow_cat_lookup (fns : DriftTestFns) (cat cont : List String)
    (r a : Chunk) (col : String) (row : Row) (rv av : List Rat)
    (hrow : driftRowForPair fns cat cont (some r, some a) = .ok row)
    (hcat : col ∈ cat) (hnotcont : col ∉ cont) (hmem : col ∈ chunkColumns a)
    (hrv : colData r col = some rv) (hav : colData a col = some av) :
    dictGet row (col ++ "_statistic")
      = some (CellValue.num (fns.chi2_contingency
          (pdConcatCounts (value_counts rv) (value_counts av))).1)
    ∧ dictGet row (col ++ "_p_vaLue")
      = some (CellValue.num (pyRound3 (fns.chi2_contingency
          (pdConcatCounts (value_counts rv) (value_counts av))).2)) := by
  obtain ⟨row1, h1, h2⟩ := driftRow_decompose fns cat cont r a row hrow
  have hset := processCatCols_sets fns r a (setInter (chunkColumns a) cat)
    [("chunk", CellValue.str a.key)] row1 col rv av h1 (setInter_nodup _ _)
    (mem_setInter.mpr ⟨hmem, hcat⟩) hrv hav
  have hKstat : ∀ c' ∈ setInter (chunkColumns a) cont,
      c' ++ "_statistic" ≠ col ++ "_statistic"
      ∧ c' ++ "_p_value" ≠ col ++ "_statistic" := by
    intro c' hc'
    have hne : c' ≠ col := fun he => hnotcont (he ▸ (mem_setInter.mp hc').2)
    exact ⟨fun heq => hne (append_suffix_inj heq),
      (stat_key_ne_pvalue_key col c').symm⟩
  have hKpvL : ∀ c' ∈ setInter (chunkColumns a) cont,
      c' ++ "_statistic" ≠ col ++ "_p_vaLue"
      ∧ c' ++ "_p_value" ≠ col ++ "_p_vaLue" := by
    intro c' _
    exact ⟨stat_key_ne_pvaLue_key c' col, pvalue_key_ne_pvaLue_key c' col⟩
  constructor
  · rw [processContCols_preserve fns (some r) a _ row1 row
      (col ++ "_statistic") h2 hKstat]
    exact hset.1
  · rw [processContCols_preserve fns (some r) a _ row1 row
      (col ++ "_p_vaLue") h2 hKpvL]
    exact hset.2

lemma driftRow_cont_lookup (fns : DriftTestFns) (cat cont : List String)
    (r a : Chunk) (col : String) (row : Row) (rv av : List Rat)
    (hrow : driftRowForPair fns cat cont (some r, some a) = .ok row)
    (hcont : col ∈ cont) (hmem : col ∈ chunkColumns a)
    (hrv : colData r col = some rv) (hav : colData a col = some av) :
    dictGet row (col ++ "_statistic")
      = some (CellValue.num (fns.ks_2samp rv av).1)
    ∧ dictGet row (col ++ "_p_value")
      = some (CellValue.num (pyRound3 (fns.ks_2samp rv av).2)) := by
  obtain ⟨row1, _, h2⟩ := driftRow_decompose fns cat cont r a row hrow
  exact processContCols_sets fns r a (setInter (chunkColumns a) cont) row1 row
    col rv av h2 (setInter_nodup _ _) (mem_setInter.mpr ⟨hmem, hcont⟩) hrv hav

lemma driftRow_absent_lookup (fns : DriftTestFns) (cat cont : List String)
    (r a : Chunk) (col : String) (row : Row)
    (hrow : driftRowForPair fns cat cont (some r, some a) = .ok row)
    (hmem : col ∉ chunkColumns a) :
    dictGet row (col ++ "_statistic") = none
    ∧ dictGet row (col ++ "_p_value") = none
    ∧ dictGet row (col ++ "_p_vaLue") = none := by
  obtain ⟨row1, h1, h2⟩ := driftRow_decompose fns cat cont r a row hrow
  have hneCat : ∀ c' ∈ setInter (chunkColumns a) cat, c' ≠ col :=
    fun c' hc' he => hmem (he ▸ (mem_setInter.mp hc').1)
  have hneCont : ∀ c' ∈ setInter (chunkColumns a) cont, c' ≠ col :=
    fun c' hc' he => hmem (he ▸ (mem_setInter.mp hc').1)
  refine ⟨?_, ?_, ?_⟩
  · rw [processContCols_preserve fns (some r) a _ row1 row
        (col ++ "_statistic") h2
        (fun c' hc' => ⟨fun heq => hneCont c' hc' (append_suffix_inj heq),
          (stat_key_ne_pvalue_key col c').symm⟩),
      processCatCols_preserve fns (some r) a _ _ row1
        (col ++ "_statistic") h1
        (fun c' hc' => ⟨fun heq => hneCat c' hc' (append_suffix_inj heq),
          (stat_key_ne_pvaLue_key col c').symm⟩)]
    exact dictGet_singleton_ne _ _ _ (stat_key_ne_chunk col).symm
  · rw [processContCols_preserve fns (some r) a _ row1 row
        (col ++ "_p_value") h2
        (fun c' hc' => ⟨stat_key_ne_pvalue_key c' col,
          fun heq => hneCont c' hc' (append_suffix_inj heq)⟩),
      processCatCols_preserve fns (some r) a _ _ row1
        (col ++ "_p_value") h1
        (fun c' hc' => ⟨stat_key_ne_pvalue_key c' col,
          (pvalue_key_ne_pvaLue_key col c').symm⟩)]
    exact dictGet_singleton_ne _ _ _ (pvalue_key_ne_chunk col).symm
  · rw [processContCols_preserve fns (some r) a _ row1 row
        (col ++ "_p_vaLue") h2
        (fun c' hc' => ⟨stat_key_ne_pvaLue_key c' col,
          pvalue_key_ne_pvaLue_key c' col⟩),
      processCatCols_preserve fns (some r) a _ _ row1
        (col ++ "_p_vaLue") h1
        (fun c' hc' => ⟨stat_key_ne_pvaLue_key c' col,
          fun heq => hneCat c' hc' (append_suffix_inj heq)⟩)]
    exact dictGet_singleton_ne _ _ _ (pvaLue_key_ne_chunk col).symm

/-- C5: per-feature test dispatch for a paired (reference, analysis) chunk.
A feature column present in the analysis slice and declared categorical gets
a chi-squared test on the contingency table of the two value-count series; a
column declared continuous gets a two-sample Kolmogorov-Smirnov test on the
raw value sequences; a feature column absent from the analysis slice
contributes no columns at all to that row. -/
theorem C5_per_feature_test_dispatch (fns : DriftTestFns) (md : ModelMetadata)
    (r a : Chunk) (col : String) (row : Row)
    (hrow : driftRowForPair fns (md.categorical_features.map (·.column_name))
      (md.continuous_features.map (·.column_name)) (some r, some a) = .ok row) :
    (col ∈ md.categorical_features.map (·.column_name) →
      col ∉ md.continuous_features.map (·.column_name) →
      col ∈ chunkColumns a →
      ∀ rv av, colData r col = some rv → colData a col = some av →
        dictGet row (col ++ "_statistic")
          = some (CellValue.num (fns.chi2_contingency
              (pdConcatCounts (value_counts rv) (value_counts av))).1)
        ∧ dictGet row (col ++ "_p_vaLue")
          = some (CellValue.num (pyRound3 (fns.chi2_contingency
              (pdConcatCounts (value_counts rv) (value_counts av))).2)))
    ∧ (col ∈ md.continuous_features.map (·.column_name) →
      col ∈ chunkColumns a →
      ∀ rv av, colData r col = some rv → colData a col = some av →
        dictGet row (col ++ "_statistic")
          = some (CellValue.num (fns.ks_2samp rv av).1)
        ∧ dictGet row (col ++ "_p_value")
          = some (CellValue.num (pyRound3 (fns.ks_2samp rv av).2)))
    ∧ (col ∉ chunkColumns a →
        dictGet row (col ++ "_statistic") = none
        ∧ dictGet row (col ++ "_p_value") = none
        ∧ dictGet row (col ++ "_p_vaLue") = none) := by
  refine ⟨?_, ?_, ?_⟩
  · intro hcat hnotcont hmem rv av hrv hav
    exact driftRow_cat_lookup fns _ _ r a col row rv av hrow hcat hnotcont hmem hrv hav
  · intro hcont hmem rv av hrv hav
    exact driftRow_cont_lookup fns _ _ r a col row rv av hrow hcont hmem hrv hav
  · intro hmem
    exact driftRow_absent_lookup fns _ _ r a col row hrow hmem

/-- Reference chunk with both a categorical and a continuous column. -/
def chunkRb : Chunk := ⟨0, "ref0", [("region", []), ("score", [])]⟩

/-- Analysis chunk with both a categorical and a continuous column. -/
def chunkAb : Chunk := ⟨1, "ana0", [("region", []), ("score", [])]⟩

/-- The concrete drift-result row produced for `chunkRb`/`chunkAb` under the
trivial test functions. -/
def rowB : Row :=
  [("chunk", CellValue.str "ana0"),
   ("region_statistic", CellValue.num 0),
   ("region_p_vaLue", CellValue.num 0),
   ("score_statistic", CellValue.num 0),
   ("score_p_value", CellValue.num 0)]

lemma rowB_eval : driftRowForPair fnsW
    (mdBoth.categorical_features.map (·.column_name))
    (mdBoth.continuous_features.map (·.column_name))
    (some chunkRb, some chunkAb) = .ok rowB := by
  simp [driftRowForPair, processCatCols, processContCols, setInter, chunkColumns,
    colData, value_counts, pdConcatCounts, pyRound3_zero, dictUpdate, mdBoth,
    chunkRb, chunkAb, fnsW, rowB,
    ModelMetadata.categorical_features, ModelMetadata.continuous_features]

/-- C5 witness: dispatch at the concrete pair `chunkRb`/`chunkAb`. -/
theorem C5_per_feature_test_dispatch_witness :
    (dictGet rowB ("region" ++ "_statistic")
      = some (CellValue.num (fnsW.chi2_contingency
          (pdConcatCounts (value_counts []) (value_counts []))).1))
    ∧ (dictGet rowB ("score" ++ "_p_value")
      = some (CellValue.num (pyRound3 (fnsW.ks_2samp [] []).2)))
    ∧ dictGet rowB ("weight" ++ "_statistic") = none := by
  have h := C5_per_feature_test_dispatch fnsW mdBoth chunkRb chunkAb
  refine ⟨((h "region" rowB rowB_eval).1 (by decide) (by decide) (by decide)
    [] [] rfl rfl).1, ?_, ?_⟩
  · exact ((h "score" rowB rowB_eval).2.1 (by decide) (by decide) [] [] rfl rfl).2
  · exact ((h "weight" rowB rowB_eval).2.2 (by decide)).1

/-- C8: numeric semantics of recorded values.  In both test branches the
statistic is stored exactly as returned (full precision) while the p-value
is stored as `pyRound3` of the raw p-value; `pyRound3` yields an integer
multiple of 1/1000 (exactly 3 decimal places), differs from the raw value by
at most 1/2000, and maps `[0, 1]` into `[0, 1]`. -/
theorem C8_pvalue_rounded_statistic_full_precision (fns : DriftTestFns)
    (md : ModelMetadata) (r a : Chunk) (col : String) (row : Row)
    (hrow : driftRowForPair fns (md.categorical_features.map (·.column_name))
      (md.continuous_features.map (·.column_name)) (some r, some a) = .ok row) :
    (col ∈ md.categorical_features.map (·.column_name) →
      col ∉ md.continuous_features.map (·.column_name) →
      col ∈ chunkColumns a →
      ∀ rv av, colData r col = some rv → colData a col = some av →
        dictGet row (col ++ "_statistic")
          = some (CellValue.num (fns.chi2_contingency
              (pdConcatCounts (value_counts rv) (value_counts av))).1)
        ∧ dictGet row (col ++ "_p_vaLue")
          = some (CellValue.num (pyRound3 (fns.chi2_contingency
              (pdConcatCounts (value_counts rv) (value_counts av))).2)))
    ∧ (col ∈ md.continuous_features.map (·.column_name) →
      col ∈ chunkColumns a →
      ∀ rv av, colData r col = some rv → colData a col = some av →
        dictGet row (col ++ "_statistic")
          = some (CellValue.num (fns.ks_2samp rv av).1)
        ∧ dictGet row (col ++ "_p_value")
          = some (CellValue.num (pyRound3 (fns.ks_2samp rv av).2)))
    ∧ (∀ p : Rat, (∃ n : Int, pyRound3 p = (n : Rat) / 1000)
        ∧ |pyRound3 p - p| ≤ 1/2000
        ∧ (0 ≤ p → p ≤ 1 → 0 ≤ pyRound3 p ∧ pyRound3 p ≤ 1)) := by
  refine ⟨?_, ?_, ?_⟩
  · intro hcat hnotcont hmem rv av hrv hav
    exact driftRow_cat_lookup fns _ _ r a col row rv av hrow hcat hnotcont hmem hrv hav
  · intro hcont hmem rv av hrv hav
    exact driftRow_cont_lookup fns _ _ r a col row rv av hrow hcont hmem hrv hav
  · intro p
    exact ⟨pyRound3_thousandth p, pyRound3_abs_sub p,
      fun h0 h1 => ⟨pyRound3_nonneg p h0, pyRound3_le_one p h1⟩⟩

/-- C8 witness: the statement at the concrete pair `chunkRb`/`chunkAb` and
the raw p-value 1. -/
theorem C8_pvalue_rounded_statistic_full_precision_witness :
    (dictGet rowB ("region" ++ "_p_vaLue")
      = some (CellValue.num (pyRound3 (fnsW.chi2_contingency
          (pdConcatCounts (value_counts []) (value_counts []))).2)))
    ∧ (dictGet rowB ("score" ++ "_statistic")
      = some (CellValue.num (fnsW.ks_2samp [] []).1))
    ∧ (∃ n : Int, pyRound3 1 = (n : Rat) / 1000)
    ∧ |pyRound3 1 - 1| ≤ 1/2000
    ∧ (0 ≤ pyRound3 1 ∧ pyRound3 1 ≤ 1) := by
  have h := C8_pvalue_rounded_statistic_full_precision fnsW mdBoth chunkRb chunkAb
  refine ⟨((h "region" rowB rowB_eval).1 (by decide) (by decide) (by decide)
    [] [] rfl rfl).2, ?_, ?_, ?_, ?_⟩
  · exact ((h "score" rowB rowB_eval).2.1 (by decide) (by decide) [] [] rfl rfl).1
  · exact ((h "region" rowB rowB_eval).2.2 1).1
  · exact ((h "region" rowB rowB_eval).2.2 1).2.1
  · exact ((h "region" rowB rowB_eval).2.2 1).2.2 (by norm_num) (by norm_num)
